import Mathlib

/-
Verification development for the neutrino-feegrant server (`src/server.ts`).

The embedding models the block-paced batching broadcaster:
* the `a_enqueued` queue of pending grant/revoke requests,
* `check_queue` (lines 671-846): cooldown handling, the batch-building
  `reduce` over the dequeued snapshot (with ECMA `Array.prototype.reduce`
  semantics: the length is cached up front, and an in-place `remove` shifts
  later elements, so the element following a removed one is skipped),
  the RETRY_TRANSACTION loop with sequence-mismatch recovery, and the
  resolution of the per-request futures,
* `claim` (lines 910-1014): address validation, the allowance-inspection
  policy, and the enqueue calls it performs,
* the two HTTP routes that invoke `claim`.

External collaborators (signing, broadcasting, the LCD allowance query,
bech32 decoding, `Date` parsing, `auth`) are passed in as environment
records; the protobuf message encoders are modelled as an injective
constructor type, and `safe_bytes_to_base64` is modelled by an executable
RFC 4648 base64 encoder.
-/

namespace Feegrant

/-- A byte string: one `Nat` per byte of an encoded message (`Uint8Array`). -/
abbrev Bytes := List Nat

/-- One entry of the `a_enqueued` queue (type `Enqueued` in the source):
payload bytes `atu8_msg`, gas limit `xg_limit`, the identity of the deferred
promise resolver `fke_granted` (a future id), and the grantee address. -/
structure Enqueued where
  msg : Bytes
  limit : Nat
  fid : Nat
  grantee : String
deriving DecidableEq, Repr

/-- The standard base64 alphabet. -/
def b64Alphabet : List Char :=
  "ABCDEFGHIJKLMNOPQRSTUVWXYZabcdefghijklmnopqrstuvwxyz0123456789+/".toList

/-- Character at a given index of the base64 alphabet. -/
def b64Char (n : Nat) : Char := b64Alphabet.getD n 'A'

/-- RFC 4648 base64 of a byte list (3 bytes become 4 characters, with
padding for a 1- or 2-byte tail). -/
def bytesToBase64 : Bytes → List Char
  | b1 :: b2 :: b3 :: bs =>
    b64Char (b1 / 4) :: b64Char (b1 % 4 * 16 + b2 / 16) ::
      b64Char (b2 % 16 * 4 + b3 / 64) :: b64Char (b3 % 64) :: bytesToBase64 bs
  | [b1, b2] => [b64Char (b1 / 4), b64Char (b1 % 4 * 16 + b2 / 16), b64Char (b2 % 16 * 4), '=']
  | [b1] => [b64Char (b1 / 4), b64Char (b1 % 4 * 16), '=', '=']
  | [] => []

/-- Models `safe_bytes_to_base64(atu8_msg) || ''` from the source: the
base64 encoding of the payload bytes, as a string. -/
def safe_bytes_to_base64 (b : Bytes) : String := ⟨bytesToBase64 b⟩

/-- The accumulator threaded through the message-concatenation `reduce`
of `check_queue` (source lines 712-759): the live `a_dequeued` array
(mutated in place by `remove`), the accepted requests (whose payloads form
`a_msgs`, in order), `a_postponed`, and the two string sets `as_msgs`
(base64 payloads seen) and `as_grantees` (grantees claimed). -/
structure BuildSt where
  deq : List Enqueued
  accepted : List Enqueued
  postponed : List Enqueued
  msgs : List String
  grantees : List String
deriving DecidableEq, Repr

/-- One index step of the reduce callback (source lines 719-759). Reading
index `k` of the live array; if the element's base64 payload is already in
`as_msgs` it is dropped silently; otherwise the payload is added to
`as_msgs` and the request is either postponed (grantee already claimed:
`remove(a_dequeued, a_queued)` splices it out and it is pushed onto
`a_postponed`) or accepted (grantee recorded, payload pushed onto the
batch). An absent index (after the array shrank) is a no-op, as in ECMA
`Array.prototype.reduce`. -/
def buildStep (s : BuildSt) (k : Nat) : BuildSt :=
  match s.deq[k]? with
  | none => s
  | some q =>
    let sb64 := safe_bytes_to_base64 q.msg
    if sb64 ∈ s.msgs then
      s
    else if q.grantee ∈ s.grantees then
      ⟨s.deq.eraseIdx k, s.accepted, s.postponed ++ [q], s.msgs ++ [sb64], s.grantees⟩
    else
      ⟨s.deq, s.accepted ++ [q], s.postponed, s.msgs ++ [sb64], s.grantees ++ [q.grantee]⟩

/-- The reduce traversal: indices `k, k+1, …` for the initially-cached
length (`n` counts the steps remaining), against the live array. -/
def buildLoop : BuildSt → Nat → Nat → BuildSt
  | s, _, 0 => s
  | s, k, n + 1 => buildLoop (buildStep s k) (k + 1) n

/-- The whole batch-building reduce over a drained snapshot. -/
def buildBatch (deq : List Enqueued) : BuildSt :=
  buildLoop ⟨deq, [], [], [], []⟩ 0 deq.length

/-- Sum of the `xg_limit` fields, as in
`a_dequeued.reduce((xg_sum, [, xg]) => xg_sum + xg, 0n)` (source line 762). -/
def sumLimits (l : List Enqueued) : Nat := (l.map Enqueued.limit).sum

/-- The `g_meta` object of a broadcast result (codespace, code, log). -/
structure Meta where
  codespace : Option String
  code : Nat
  log : Option String
deriving DecidableEq, Repr

/-- A broadcast outcome `[xc_code, sx_res, g_meta]` (`TxResultTuple` head). -/
structure Outcome where
  code : Nat
  res : String
  meta : Option Meta
deriving DecidableEq, Repr

/-- What one sign-and-broadcast attempt does: either it returns an outcome
or it throws (network or signing failure, the catch path). -/
inductive AttemptResult where
  | ok (o : Outcome)
  | thrown (e : String)
deriving DecidableEq, Repr

/-- Environment of one drain: the result of the `i`-th sign-and-broadcast
attempt, and the account number that `auth(k_wallet)` returns when the
`i`-th attempt triggers a sequence-mismatch retry. -/
structure Env where
  attempt : Nat → AttemptResult
  authAcct : Nat → String

/-- Maximal leading run of decimal digits, as matched by `\d+`. -/
def leadingDigits (cs : List Char) : List Char := cs.takeWhile fun c => c.isDigit

/-- Executable model of `/expected (\d+)/.exec(log)`: scan for the first
position where the literal `expected ` is followed by at least one digit,
and return the maximal digit run (the first capture group). -/
def execExpectedAux : List Char → Option String
  | [] => none
  | c :: cs =>
    if (c :: cs).take 9 = "expected ".toList then
      match leadingDigits (cs.drop 8) with
      | [] => execExpectedAux cs
      | d :: ds => some ⟨d :: ds⟩
    else execExpectedAux cs

/-- `/expected (\d+)/` applied to a log string. -/
def execExpected (s : String) : Option String := execExpectedAux s.toList

/-- The sequence-mismatch test of the retry branch (source lines 774-804),
without the retry-count guard: a non-zero code, codespace `"sdk"`, sdk
code 32, and a successful `/expected (\d+)/` match against
`g_meta.log || ''`; returns the captured digits. -/
def retrySeq (o : Outcome) : Option String :=
  if o.code = 0 then none
  else
    match o.meta with
    | some m =>
      if m.codespace = some "sdk" ∧ m.code = 32 then execExpected (m.log.getD "") else none
    | none => none

/-- Record of one iteration of the RETRY_TRANSACTION loop: the `z_auth`
value used for signing, the dequeued array before and after the
batch-building reduce, the accepted requests, the batch payloads `a_msgs`,
`a_postponed`, the aggregated gas limit, and what the attempt returned. -/
structure Attempt where
  auth : Option (String × String)
  deqBefore : List Enqueued
  deqAfter : List Enqueued
  accepted : List Enqueued
  batch : List Bytes
  postponed : List Enqueued
  limit : Nat
  result : AttemptResult
deriving DecidableEq, Repr

/-- How a drain ends: a final outcome (success or surrendered failure)
with the final dequeued list and the final iteration's postponed list, or
a thrown error with the dequeued list at the moment of the throw. -/
inductive DrainEnd where
  | finished (deqF : List Enqueued) (postponed : List Enqueued) (o : Outcome)
  | errored (deqE : List Enqueued) (e : String)
deriving DecidableEq, Repr

/-- The RETRY_TRANSACTION loop (source lines 702-835). `rem` is the number
of retries still allowed — the source guard `i_retry < 2` rendered as
`rem > 0` with `rem = 2 - i_retry` — while `i` is `i_retry` itself (it
indexes the environment), and `z` is `z_auth`. Each iteration rebuilds the
batch from the (possibly already shrunk) dequeued array, signs and
broadcasts; on a sequence-mismatch outcome with retries remaining it
fetches auth, overrides `z_auth` with the account number and the parsed
sequence, and loops — note the current iteration's postponed requests are
not pushed back in that case, matching the `continue` that skips the
`a_enqueued.push(...a_postponed)` statement. -/
def drainLoop (env : Env) : Nat → Nat → Option (String × String) → List Enqueued →
    List Attempt × DrainEnd
  | 0, i, z, deq =>
    let b := buildBatch deq
    let att := fun r => Attempt.mk z deq b.deq b.accepted (b.accepted.map Enqueued.msg)
      b.postponed (sumLimits b.deq) r
    match env.attempt i with
    | .thrown e => ([att (.thrown e)], .errored b.deq e)
    | .ok o => ([att (.ok o)], .finished b.deq b.postponed o)
  | rem + 1, i, z, deq =>
    let b := buildBatch deq
    let att := fun r => Attempt.mk z deq b.deq b.accepted (b.accepted.map Enqueued.msg)
      b.postponed (sumLimits b.deq) r
    match env.attempt i with
    | .thrown e => ([att (.thrown e)], .errored b.deq e)
    | .ok o =>
      match retrySeq o with
      | some ds =>
        let rest := drainLoop env rem (i + 1) (some (env.authAcct i, ds)) b.deq
        (att (.ok o) :: rest.1, rest.2)
      | none => ([att (.ok o)], .finished b.deq b.postponed o)

/-- A resolution event delivered to a request's future `fke_granted`:
either the transaction outcome or a forwarded error. -/
inductive Resolution where
  | outcome (fid : Nat) (o : Outcome)
  | err (fid : Nat) (e : String)
deriving DecidableEq, Repr

/-- The mutable module state touched by a tick: `a_enqueued` and
`c_clearing`. -/
structure St where
  enqueued : List Enqueued
  clearing : Nat
deriving DecidableEq, Repr

/-- What one `check_queue` call produces: the new module state, the
resolution events fired, and the per-iteration attempt records. -/
structure TickResult where
  state : St
  resolutions : List Resolution
  attempts : List Attempt
deriving DecidableEq, Repr

/-- `check_queue` (source lines 671-846). With `c_clearing > 0` the tick
only decrements it. Otherwise, with a non-empty queue, the queue is
drained (`a_dequeued = a_enqueued.slice(); a_enqueued.length = 0`) and the
retry loop runs: on a final outcome the postponed requests are
re-enqueued, every remaining dequeued future is resolved with the outcome
and `c_clearing` is set to 1; on a throw every remaining dequeued future
is resolved with the error and the procedure returns at once, leaving
`c_clearing` at its entry value. -/
def check_queue (env : Env) (s : St) : TickResult :=
  if 0 < s.clearing then
    ⟨⟨s.enqueued, s.clearing - 1⟩, [], []⟩
  else if s.enqueued.length ≠ 0 then
    match drainLoop env 2 0 none s.enqueued with
    | (atts, .finished deqF post o) =>
      ⟨⟨post, 1⟩, deqF.map fun q => .outcome q.fid o, atts⟩
    | (atts, .errored deqE e) =>
      ⟨⟨[], s.clearing⟩, deqE.map fun q => .err q.fid e, atts⟩
  else ⟨s, [], []⟩

/-- `enqueue` (source lines 849-867): append a request with a fresh
deferred future to `a_enqueued`. -/
def enqueue (s : St) (msg : Bytes) (limit : Nat) (fid : Nat) (grantee : String) : St :=
  ⟨s.enqueued ++ [⟨msg, limit, fid, grantee⟩], s.clearing⟩

/-- The future id a resolution event is addressed to. -/
def resFid : Resolution → Nat
  | .outcome f _ => f
  | .err f _ => f

/-- An attempt result that triggers the sequence-mismatch branch: an
outcome (not a throw) whose code, codespace, sdk code and log match. -/
def seq32 : AttemptResult → Bool
  | .ok o => (retrySeq o).isSome
  | .thrown _ => false

/-- The digits captured by `/expected (\d+)/` from an attempt's outcome. -/
def seqOf : AttemptResult → String
  | .ok o => (retrySeq o).getD ""
  | .thrown _ => ""

/-- Number of resolution events addressed to future id `f`. -/
def fidCount (l : List Resolution) (f : Nat) : Nat := l.countP fun x => resFid x == f

/-- Number of queued requests carrying future id `f`. -/
def enqCount (l : List Enqueued) (f : Nat) : Nat := l.countP fun q => q.fid == f

/-- Invariant of the batch-building accumulator: `as_grantees` is exactly
the grantee list of the accepted requests; the accepted base64 payloads
are pairwise distinct and all recorded in `as_msgs`; every postponed
request's grantee collides with an accepted request's grantee. -/
def BInv (s : BuildSt) : Prop :=
  s.grantees = s.accepted.map Enqueued.grantee ∧
  (s.accepted.map fun q => safe_bytes_to_base64 q.msg).Nodup ∧
  (∀ x ∈ s.accepted.map fun q => safe_bytes_to_base64 q.msg, x ∈ s.msgs) ∧
  (∀ p ∈ s.postponed, p.grantee ∈ s.accepted.map Enqueued.grantee) ∧
  (s.accepted.map Enqueued.grantee).Nodup

/-! ### The HTTP front end: the `claim` procedure and its two routes -/

/-- `SI_MESSAGE_TYPE_COSMOS_FEEGRANT_BASIC_ALLOWANCE`: the protobuf type
URL of a basic allowance. -/
def SI_BASIC_ALLOWANCE : String := "/cosmos.feegrant.v1beta1.BasicAllowance"

/-- `XG_LIMIT_GRANT = 15_000n` (source line 502). -/
def XG_LIMIT_GRANT : Nat := 15000

/-- `XG_LIMIT_REVOKE = 15_000n` (source line 503). -/
def XG_LIMIT_REVOKE : Nat := 15000

/-- A coin of a spend limit: amount (decimal string) and denom. -/
structure Coin where
  amount : String
  denom : String
deriving DecidableEq, Repr

/-- The allowance object carried by the query response: its protobuf
`@type` discriminator, `spend_limit` and `expiration`. -/
structure AllowanceObj where
  typ : String
  spend_limit : List Coin
  expiration : Option String
deriving DecidableEq, Repr

/-- `g_res_allowance.allowance`: a wrapper whose own `allowance` field may
again be absent (the source reads it with `g_allowance?.['@type']`). -/
structure AllowanceWrapper where
  allowance : Option AllowanceObj
deriving DecidableEq, Repr

/-- The third component of `queryCosmosFeegrantAllowance`'s result; its
`allowance` field is checked for truthiness before use. -/
structure QueryAllowanceRes where
  allowance : Option AllowanceWrapper
deriving DecidableEq, Repr

/-- The two protobuf-Any messages `claim` can build: a revoke and a grant
(the encoders are external black boxes, modelled as constructors; the
grant hard-codes the `[['500000', 'uscrt']]` spend limit and a 24 h
expiration, as on source lines 988-998). -/
inductive MsgAny where
  | revoke (granter grantee : String)
  | grant (granter grantee : String) (spend : List (String × String)) (expMs : Int)
deriving DecidableEq, Repr

/-- A resolved `TxResultTuple` as awaited by `claim`:
`[xc_code, sx_res, g_meta, atu8_result, h_events]` (the raw result bytes
are unused by `claim` and omitted). -/
structure TxResult where
  code : Nat
  res : String
  meta : Option Meta
  events : List (String × List String)
deriving DecidableEq, Repr

/-- Environment of one `claim` invocation: the wallet address, the
`ALLOWANCE_AMOUNT` configuration, the external bech32 decoder (`none`
models a throw), the allowance query response, `new Date(s).getTime()`
(`none` models `NaN`), `Date.now()`, and the awaited outcome of the `n`-th
`enqueue` call made by this request. -/
structure ClaimEnv where
  granter : String
  allowanceAmount : Nat
  bech32Decode : String → Option Bytes
  queryRes : Option QueryAllowanceRes
  parseDateMs : String → Option Int
  nowMs : Int
  enq : Nat → TxResult

/-- Body of an HTTP response produced by `claim`: an `{error: …}` object,
the raw chain response forwarded on code 550, or the `{meta, events}`
success object. -/
inductive RespBody where
  | errJson (msg : String)
  | chainRaw (s : String)
  | success (meta : Option Meta) (events : List (String × List String))
deriving DecidableEq, Repr

/-- An HTTP response together with the `enqueue` calls the handler made:
each call records the message, the gas limit and the grantee. -/
structure ClaimResult where
  status : Nat
  body : RespBody
  enqueues : List (MsgAny × Nat × String)
deriving DecidableEq, Repr

/-- JS `sa_grantee.startsWith('secret1')`. -/
def startsWithSecret1 (sa : String) : Bool := decide (sa.toList.take 7 = "secret1".toList)

/-- The address check of `claim` (source lines 921-930): prefix `secret1`,
bech32 decoding succeeds, and the decoded payload is exactly 20 bytes;
`die` and the failed `assert` both land in the catch. -/
def validAddress (env : ClaimEnv) (sa : String) : Bool :=
  startsWithSecret1 sa &&
    match env.bech32Decode sa with
    | some data => data.length == 20
    | none => false

/-- The tail of `claim` (source lines 988-1013): build the grant message,
enqueue it (the `idx`-th enqueue of this request), and map the awaited
outcome to HTTP 550 or 200. -/
def grantPhase (env : ClaimEnv) (sa : String) (acc : List (MsgAny × Nat × String)) (idx : Nat) :
    ClaimResult :=
  let m := MsgAny.grant env.granter sa [("500000", "uscrt")] (env.nowMs + 24 * 3600000)
  let acc2 := acc ++ [(m, XG_LIMIT_GRANT, sa)]
  let r := env.enq idx
  if r.code ≠ 0 then ⟨550, .chainRaw r.res, acc2⟩
  else ⟨200, .success r.meta r.events, acc2⟩

/-- `claim` (source lines 910-1014): validate the address, inspect any
existing allowance (non-basic allowance gives 500; a still-full basic
allowance with more than an hour remaining gives 400; otherwise a revoke
is enqueued first, its failure giving 425), then grant. -/
def claim (env : ClaimEnv) (sa : String) : ClaimResult :=
  if ¬ validAddress env sa then
    ⟨400, .errJson "Invalid bech32 address", []⟩
  else
    match env.queryRes.bind QueryAllowanceRes.allowance with
    | none => grantPhase env sa [] 0
    | some w =>
      match w.allowance with
      | none => ⟨500, .errJson "Discovered non-basic allowance", []⟩
      | some a =>
        if a.typ ≠ SI_BASIC_ALLOWANCE then
          ⟨500, .errJson "Discovered non-basic allowance", []⟩
        else
          let xt : Option Int := match a.expiration with
            | some s => env.parseDateMs s
            | none => none
          let full : Bool :=
            decide (a.spend_limit.head?.map Coin.amount = some (toString env.allowanceAmount))
          let fresh : Bool := match xt with
            | some t => decide (t - env.nowMs > 3600000)
            | none => false
          if full && fresh then
            ⟨400, .errJson "Existing feegrant is full and hasn't expired yet", []⟩
          else
            let mRevoke := MsgAny.revoke env.granter sa
            let r := env.enq 0
            if r.code ≠ 0 then
              ⟨425, .errJson ("Failed to revoke existing feegrant; reason: " ++ r.res),
                [(mRevoke, XG_LIMIT_REVOKE, sa)]⟩
            else
              grantPhase env sa [(mRevoke, XG_LIMIT_REVOKE, sa)] 1

/-- The `GET /claim/:address` handler (source lines 881-891): it reads the
address from the path parameter and runs `claim` on it. -/
def handleClaimGet (env : ClaimEnv) (addressParam : String) : ClaimResult :=
  claim env addressParam

/-- The `POST /claim` handler (source lines 894-908): it reads the address
from the JSON body and runs `claim` on it. -/
def handleClaimPost (env : ClaimEnv) (bodyAddress : String) : ClaimResult :=
  claim env bodyAddress

/-! ### Concrete instances used by witnesses and counterexamples -/

/-- Three requests for the same grantee with pairwise distinct payloads. -/
def cexR1 : Enqueued := ⟨[0], 15000, 1, "secret1aaa"⟩

/-- Second request: same grantee as `cexR1`, distinct payload. -/
def cexR2 : Enqueued := ⟨[1], 15000, 2, "secret1aaa"⟩

/-- Third request: same grantee as `cexR1`, distinct payload. -/
def cexR3 : Enqueued := ⟨[2], 15000, 3, "secret1aaa"⟩

/-- An environment whose every attempt throws. -/
def envThrow : Env := ⟨fun _ => .thrown "socket hang up", fun _ => "0"⟩

/-- An environment whose every attempt broadcasts with code 0. -/
def envOk : Env := ⟨fun _ => .ok ⟨0, "", none⟩, fun _ => "0"⟩

/-- A sequence-mismatch `g_meta`. -/
def metaSeq : Meta :=
  ⟨some "sdk", 32, some "account sequence mismatch, expected 7, got 5: incorrect account sequence"⟩

/-- A sequence-mismatch outcome. -/
def outcomeSeq : Outcome := ⟨32, "", some metaSeq⟩

/-- An environment whose every attempt yields the sequence-mismatch
outcome, with distinct account numbers per `auth` fetch. -/
def envSeq : Env := ⟨fun _ => .ok outcomeSeq, fun i => toString (100 + i)⟩

/-- The single attempt of draining `[cexR1, cexR2, cexR3]` under `envOk`:
`cexR1` accepted, `cexR2` postponed, `cexR3` skipped by the shrunken
reduce and left in the dequeued list. -/
def cexAtt : Attempt :=
  ⟨none, [cexR1, cexR2, cexR3], [cexR1, cexR3], [cexR1], [[0]], [cexR2], 30000, .ok ⟨0, "", none⟩⟩

/-- The single attempt of draining `[cexR1, cexR2]` under `envOk`. -/
def cexAtt2 : Attempt :=
  ⟨none, [cexR1, cexR2], [cexR1], [cexR1], [[0]], [cexR2], 15000, .ok ⟨0, "", none⟩⟩

/-- The single attempt of draining `[cexR1]` under `envOk`. -/
def cexAtt1 : Attempt :=
  ⟨none, [cexR1], [cexR1], [cexR1], [[0]], [], 15000, .ok ⟨0, "", none⟩⟩

/-- First request of the duplicate-payload scenario: grantee `secret1w`. -/
def cexW : Enqueued := ⟨[3], 15000, 4, "secret1w"⟩

/-- Second request: same grantee as `cexW`, distinct payload — postponed,
and its splice shifts the next element under the cached reduce length. -/
def cexX : Enqueued := ⟨[4], 15000, 5, "secret1w"⟩

/-- Third request: a different grantee; skipped by the shrunken reduce, so
its payload never enters `as_msgs`. -/
def cexRr : Enqueued := ⟨[5], 15000, 6, "secret1r"⟩

/-- Fourth request: payload equal to the earlier `cexRr`'s, grantee equal
to `cexW`'s — postponed for the grantee collision instead of being dropped
as a duplicate. -/
def cexQ : Enqueued := ⟨[5], 15000, 7, "secret1w"⟩

/-- The single attempt of draining `[cexW, cexX, cexRr, cexQ]` under
`envOk`: `cexW` accepted, `cexX` and `cexQ` postponed, `cexRr` skipped. -/
def cexAttDup : Attempt :=
  ⟨none, [cexW, cexX, cexRr, cexQ], [cexW, cexRr], [cexW], [[3]], [cexX, cexQ], 30000,
   .ok ⟨0, "", none⟩⟩

/-- A claim environment with no existing allowance; the decoder accepts
exactly one address string. -/
def claimEnvBase : ClaimEnv :=
  ⟨"secret1granter", 500000,
   fun s => if s = "secret1validaddress0" then some (List.replicate 20 7) else none,
   none, fun _ => none, 0, fun _ => ⟨0, "", none, []⟩⟩

/-- The allowance object of `claimEnvFull`: basic type, amount equal to
the configured 500000, expiration parsing to 7 200 000 ms. -/
def cexAllow : AllowanceObj :=
  ⟨SI_BASIC_ALLOWANCE, [⟨"500000", "uscrt"⟩], some "2030-01-01T00:00:00Z"⟩

/-- A claim environment holding a still-full basic allowance that expires
two hours from `nowMs = 0`. -/
def claimEnvFull : ClaimEnv :=
  ⟨"secret1granter", 500000,
   fun s => if s = "secret1validaddress0" then some (List.replicate 20 7) else none,
   some ⟨some ⟨some cexAllow⟩⟩, fun _ => some 7200000, 0, fun _ => ⟨0, "", none, []⟩⟩

/-! ### Case equations for one reduce step -/

theorem buildStep_none {s : BuildSt} {k : Nat} (h : s.deq[k]? = none) :
    buildStep s k = s := by
  unfold buildStep
  rw [h]

theorem buildStep_dup {s : BuildSt} {k : Nat} {q : Enqueued} (h : s.deq[k]? = some q)
    (h1 : safe_bytes_to_base64 q.msg ∈ s.msgs) : buildStep s k = s := by
  unfold buildStep
  rw [h]
  simp [h1]

theorem buildStep_postpone {s : BuildSt} {k : Nat} {q : Enqueued} (h : s.deq[k]? = some q)
    (h1 : safe_bytes_to_base64 q.msg ∉ s.msgs) (h2 : q.grantee ∈ s.grantees) :
    buildStep s k =
      ⟨s.deq.eraseIdx k, s.accepted, s.postponed ++ [q],
       s.msgs ++ [safe_bytes_to_base64 q.msg], s.grantees⟩ := by
  unfold buildStep
  rw [h]
  simp [h1, h2]

theorem buildStep_accept {s : BuildSt} {k : Nat} {q : Enqueued} (h : s.deq[k]? = some q)
    (h1 : safe_bytes_to_base64 q.msg ∉ s.msgs) (h2 : q.grantee ∉ s.grantees) :
    buildStep s k =
      ⟨s.deq, s.accepted ++ [q], s.postponed,
       s.msgs ++ [safe_bytes_to_base64 q.msg], s.grantees ++ [q.grantee]⟩ := by
  unfold buildStep
  rw [h]
  simp [h1, h2]

/-! ### The reduce removes exactly the postponed requests -/

theorem getElem?_cons_perm {α : Type} (l : List α) (k : Nat) (a : α) (h : l[k]? = some a) :
    l.Perm (a :: l.eraseIdx k) := by
  induction l generalizing k with
  | nil => simp at h
  | cons x xs ih =>
    cases k with
    | zero =>
      rw [List.getElem?_cons_zero, Option.some_inj] at h
      subst h
      rw [List.eraseIdx_cons_zero]
    | succ j =>
      rw [List.getElem?_cons_succ] at h
      rw [List.eraseIdx_cons_succ]
      exact ((ih j h).cons x).trans (List.Perm.swap a x _)

theorem buildStep_perm (s : BuildSt) (k : Nat) :
    ((buildStep s k).deq ++ (buildStep s k).postponed).Perm (s.deq ++ s.postponed) := by
  cases h : s.deq[k]? with
  | none => rw [buildStep_none h]
  | some q =>
    by_cases h1 : safe_bytes_to_base64 q.msg ∈ s.msgs
    · rw [buildStep_dup h h1]
    · by_cases h2 : q.grantee ∈ s.grantees
      · rw [buildStep_postpone h h1 h2]
        have hp := getElem?_cons_perm s.deq k q h
        show (s.deq.eraseIdx k ++ (s.postponed ++ [q])).Perm (s.deq ++ s.postponed)
        have e1 : s.deq.eraseIdx k ++ (s.postponed ++ [q])
            = (s.deq.eraseIdx k ++ s.postponed) ++ [q] := (List.append_assoc _ _ _).symm
        rw [e1]
        exact (List.perm_append_singleton _ _).trans ((hp.append_right s.postponed).symm)
      · rw [buildStep_accept h h1 h2]

theorem buildLoop_perm (n : Nat) : ∀ (s : BuildSt) (k : Nat),
    ((buildLoop s k n).deq ++ (buildLoop s k n).postponed).Perm (s.deq ++ s.postponed) := by
  induction n with
  | zero => intro s k; exact .refl _
  | succ m ih =>
    intro s k
    exact (ih (buildStep s k) (k + 1)).trans (buildStep_perm s k)

theorem buildBatch_perm (deq : List Enqueued) :
    ((buildBatch deq).deq ++ (buildBatch deq).postponed).Perm deq := by
  have h := buildLoop_perm deq.length ⟨deq, [], [], [], []⟩ 0
  simpa [buildBatch] using h

/-! ### The accumulator invariant is preserved -/

theorem buildStep_inv {s : BuildSt} (k : Nat) (hs : BInv s) : BInv (buildStep s k) := by
  obtain ⟨hg, hnd, hsub, hpost, hgnd⟩ := hs
  cases h : s.deq[k]? with
  | none => rw [buildStep_none h]; exact ⟨hg, hnd, hsub, hpost, hgnd⟩
  | some q =>
    by_cases h1 : safe_bytes_to_base64 q.msg ∈ s.msgs
    · rw [buildStep_dup h h1]; exact ⟨hg, hnd, hsub, hpost, hgnd⟩
    · by_cases h2 : q.grantee ∈ s.grantees
      · rw [buildStep_postpone h h1 h2]
        refine ⟨hg, hnd, ?_, ?_, hgnd⟩
        · intro x hx
          exact List.mem_append_left _ (hsub x hx)
        · intro p hp
          rcases List.mem_append.1 hp with hp | hp
          · exact hpost p hp
          · rw [List.mem_singleton] at hp
            subst hp
            rw [← hg]
            exact h2
      · rw [buildStep_accept h h1 h2]
        refine ⟨by simp [hg], ?_, ?_, ?_, ?_⟩
        · rw [List.map_append, List.nodup_append]
          refine ⟨hnd, by simp, ?_⟩
          simp only [List.map_cons, List.map_nil, List.disjoint_singleton]
          intro hmem
          exact h1 (hsub _ hmem)
        · intro x hx
          rw [List.map_append] at hx
          rcases List.mem_append.1 hx with hx | hx
          · exact List.mem_append_left _ (hsub x hx)
          · simp only [List.map_cons, List.map_nil, List.mem_singleton] at hx
            subst hx
            exact List.mem_append_right _ (by simp)
        · intro p hp
          rw [List.map_append]
          exact List.mem_append_left _ (hpost p hp)
        · rw [List.map_append, List.nodup_append]
          refine ⟨hgnd, by simp, ?_⟩
          simp only [List.map_cons, List.map_nil, List.disjoint_singleton]
          rw [← hg]
          exact h2

theorem buildLoop_inv (n : Nat) : ∀ (s : BuildSt) (k : Nat), BInv s → BInv (buildLoop s k n) := by
  induction n with
  | zero => intro s k hs; exact hs
  | succ m ih => intro s k hs; exact ih (buildStep s k) (k + 1) (buildStep_inv k hs)

theorem buildBatch_inv (deq : List Enqueued) : BInv (buildBatch deq) := by
  exact buildLoop_inv deq.length ⟨deq, [], [], [], []⟩ 0
    ⟨rfl, List.nodup_nil, by simp, by simp, List.nodup_nil⟩

/-! ### The head of the dequeued list survives the reduce -/

theorem buildStep_head {s : BuildSt} {k : Nat} (hk : k ≠ 0) :
    (buildStep s k).deq.head? = s.deq.head? := by
  cases h : s.deq[k]? with
  | none => rw [buildStep_none h]
  | some q =>
    by_cases h1 : safe_bytes_to_base64 q.msg ∈ s.msgs
    · rw [buildStep_dup h h1]
    · by_cases h2 : q.grantee ∈ s.grantees
      · rw [buildStep_postpone h h1 h2]
        obtain ⟨j, rfl⟩ := Nat.exists_eq_succ_of_ne_zero hk
        cases hd : s.deq with
        | nil => rfl
        | cons x xs => rfl
      · rw [buildStep_accept h h1 h2]

theorem buildLoop_head (n : Nat) : ∀ (s : BuildSt) (k : Nat), k ≠ 0 →
    (buildLoop s k n).deq.head? = s.deq.head? := by
  induction n with
  | zero => intro s k _; rfl
  | succ m ih =>
    intro s k hk
    have h1 : buildLoop s k (m + 1) = buildLoop (buildStep s k) (k + 1) m := rfl
    rw [h1, ih (buildStep s k) (k + 1) (Nat.succ_ne_zero k)]
    exact buildStep_head hk

theorem buildBatch_head (d : Enqueued) (t : List Enqueued) :
    (buildBatch (d :: t)).deq.head? = some d := by
  unfold buildBatch
  have h1 : buildLoop ⟨d :: t, [], [], [], []⟩ 0 (d :: t).length
      = buildLoop (buildStep ⟨d :: t, [], [], [], []⟩ 0) 1 t.length := rfl
  rw [h1, buildLoop_head t.length _ 1 one_ne_zero,
    @buildStep_accept ⟨d :: t, [], [], [], []⟩ 0 d (by simp) (by simp) (by simp)]
  rfl

theorem buildBatch_deq_ne_nil {deq : List Enqueued} (h : deq ≠ []) :
    (buildBatch deq).deq ≠ [] := by
  cases deq with
  | nil => exact absurd rfl h
  | cons d t =>
    intro hc
    have h2 := buildBatch_head d t
    rw [hc] at h2
    simp at h2

/-! ### Case equations for the RETRY_TRANSACTION loop -/

theorem drain_thrown {env : Env} {rem i : Nat} {z : Option (String × String)}
    {deq : List Enqueued} {e : String} (h : env.attempt i = .thrown e) :
    drainLoop env rem i z deq =
      ([⟨z, deq, (buildBatch deq).deq, (buildBatch deq).accepted,
        (buildBatch deq).accepted.map Enqueued.msg, (buildBatch deq).postponed,
        sumLimits (buildBatch deq).deq, .thrown e⟩],
       .errored (buildBatch deq).deq e) := by
  cases rem <;> simp only [drainLoop, h]

theorem drain_final {env : Env} {rem i : Nat} {z : Option (String × String)}
    {deq : List Enqueued} {o : Outcome} (h : env.attempt i = .ok o)
    (hr : rem = 0 ∨ retrySeq o = none) :
    drainLoop env rem i z deq =
      ([⟨z, deq, (buildBatch deq).deq, (buildBatch deq).accepted,
        (buildBatch deq).accepted.map Enqueued.msg, (buildBatch deq).postponed,
        sumLimits (buildBatch deq).deq, .ok o⟩],
       .finished (buildBatch deq).deq (buildBatch deq).postponed o) := by
  rcases hr with hr | hr
  · subst hr
    simp only [drainLoop, h]
  · cases rem <;> simp only [drainLoop, h, hr]

theorem drain_retry {env : Env} {r i : Nat} {z : Option (String × String)}
    {deq : List Enqueued} {o : Outcome} {ds : String}
    (h : env.attempt i = .ok o) (hr : retrySeq o = some ds) :
    drainLoop env (r + 1) i z deq =
      (⟨z, deq, (buildBatch deq).deq, (buildBatch deq).accepted,
        (buildBatch deq).accepted.map Enqueued.msg, (buildBatch deq).postponed,
        sumLimits (buildBatch deq).deq, .ok o⟩ ::
          (drainLoop env r (i + 1) (some (env.authAcct i, ds)) (buildBatch deq).deq).1,
       (drainLoop env r (i + 1) (some (env.authAcct i, ds)) (buildBatch deq).deq).2) := by
  simp only [drainLoop, h, hr]

/-! ### Shape of every recorded attempt -/

theorem drain_attempt_shape (env : Env) : ∀ (rem i : Nat) (z : Option (String × String))
    (deq : List Enqueued) (att : Attempt), att ∈ (drainLoop env rem i z deq).1 →
    att.deqAfter = (buildBatch att.deqBefore).deq ∧
    att.accepted = (buildBatch att.deqBefore).accepted ∧
    att.postponed = (buildBatch att.deqBefore).postponed ∧
    att.batch = att.accepted.map Enqueued.msg ∧
    att.limit = sumLimits att.deqAfter := by
  intro rem
  induction rem with
  | zero =>
    intro i z deq att hmem
    cases hA : env.attempt i with
    | ok o =>
      rw [drain_final hA (Or.inl rfl), List.mem_singleton] at hmem
      subst hmem
      exact ⟨rfl, rfl, rfl, rfl, rfl⟩
    | thrown e =>
      rw [drain_thrown hA, List.mem_singleton] at hmem
      subst hmem
      exact ⟨rfl, rfl, rfl, rfl, rfl⟩
  | succ r ih =>
    intro i z deq att hmem
    cases hA : env.attempt i with
    | ok o =>
      cases hq : retrySeq o with
      | none =>
        rw [drain_final hA (Or.inr hq), List.mem_singleton] at hmem
        subst hmem
        exact ⟨rfl, rfl, rfl, rfl, rfl⟩
      | some ds =>
        rw [drain_retry hA hq, List.mem_cons] at hmem
        rcases hmem with hmem | hmem
        · subst hmem
          exact ⟨rfl, rfl, rfl, rfl, rfl⟩
        · exact ih (i + 1) (some (env.authAcct i, ds)) (buildBatch deq).deq att hmem
    | thrown e =>
      rw [drain_thrown hA, List.mem_singleton] at hmem
      subst hmem
      exact ⟨rfl, rfl, rfl, rfl, rfl⟩

/-! ### The retry cap -/

theorem drain_len (env : Env) : ∀ (rem i : Nat) (z : Option (String × String))
    (deq : List Enqueued), (drainLoop env rem i z deq).1.length ≤ rem + 1 := by
  intro rem
  induction rem with
  | zero =>
    intro i z deq
    cases hA : env.attempt i with
    | ok o => rw [drain_final hA (Or.inl rfl)]; simp
    | thrown e => rw [drain_thrown hA]; simp
  | succ r ih =>
    intro i z deq
    cases hA : env.attempt i with
    | ok o =>
      cases hq : retrySeq o with
      | none => rw [drain_final hA (Or.inr hq)]; simp
      | some ds =>
        rw [drain_retry hA hq]
        have h2 := ih (i + 1) (some (env.authAcct i, ds)) (buildBatch deq).deq
        simp only [List.length_cons]
        omega
    | thrown e => rw [drain_thrown hA]; simp

/-! ### Requests never multiply across retry iterations -/

theorem drain_count (env : Env) (f : Nat) : ∀ (rem i : Nat) (z : Option (String × String))
    (deq : List Enqueued),
    (∀ dF post o, (drainLoop env rem i z deq).2 = .finished dF post o →
      enqCount dF f + enqCount post f ≤ enqCount deq f) ∧
    (∀ dE e, (drainLoop env rem i z deq).2 = .errored dE e →
      enqCount dE f ≤ enqCount deq f) := by
  have hbb : ∀ deq : List Enqueued,
      enqCount (buildBatch deq).deq f + enqCount (buildBatch deq).postponed f
        = enqCount deq f := by
    intro deq
    have h2 := List.Perm.countP_eq (fun q => q.fid == f) (buildBatch_perm deq)
    rw [List.countP_append] at h2
    exact h2
  intro rem
  induction rem with
  | zero =>
    intro i z deq
    cases hA : env.attempt i with
    | ok o =>
      rw [drain_final hA (Or.inl rfl)]
      constructor
      · intro dF post o2 hEq
        cases hEq
        exact Nat.le_of_eq (hbb deq)
      · intro dE e hEq
        cases hEq
    | thrown e =>
      rw [drain_thrown hA]
      constructor
      · intro dF post o2 hEq
        cases hEq
      · intro dE e2 hEq
        cases hEq
        have h2 := hbb deq
        omega
  | succ r ih =>
    intro i z deq
    cases hA : env.attempt i with
    | ok o =>
      cases hq : retrySeq o with
      | none =>
        rw [drain_final hA (Or.inr hq)]
        constructor
        · intro dF post o2 hEq
          cases hEq
          exact Nat.le_of_eq (hbb deq)
        · intro dE e hEq
          cases hEq
      | some ds =>
        rw [drain_retry hA hq]
        have h2 := ih (i + 1) (some (env.authAcct i, ds)) (buildBatch deq).deq
        have h3 := hbb deq
        constructor
        · intro dF post o2 hEq
          have h4 := h2.1 dF post o2 hEq
          omega
        · intro dE e hEq
          have h4 := h2.2 dE e hEq
          omega
    | thrown e =>
      rw [drain_thrown hA]
      constructor
      · intro dF post o2 hEq
        cases hEq
      · intro dE e2 hEq
        cases hEq
        have h2 := hbb deq
        omega

/-! ### A non-empty drain keeps its first request to the end -/

theorem drain_finished_ne_nil (env : Env) : ∀ (rem i : Nat) (z : Option (String × String))
    (deq : List Enqueued) (atts : List Attempt) (dF post : List Enqueued) (o : Outcome),
    deq ≠ [] → drainLoop env rem i z deq = (atts, .finished dF post o) → dF ≠ [] := by
  intro rem
  induction rem with
  | zero =>
    intro i z deq atts dF post o hne hEq
    cases hA : env.attempt i with
    | ok o2 =>
      rw [drain_final hA (Or.inl rfl)] at hEq
      have h2 : dF = (buildBatch deq).deq := by
        have h3 := congrArg Prod.snd hEq
        cases h3
        rfl
      rw [h2]
      exact buildBatch_deq_ne_nil hne
    | thrown e =>
      rw [drain_thrown hA] at hEq
      have h3 := congrArg Prod.snd hEq
      simp at h3
  | succ r ih =>
    intro i z deq atts dF post o hne hEq
    cases hA : env.attempt i with
    | ok o2 =>
      cases hq : retrySeq o2 with
      | none =>
        rw [drain_final hA (Or.inr hq)] at hEq
        have h2 : dF = (buildBatch deq).deq := by
          have h3 := congrArg Prod.snd hEq
          cases h3
          rfl
        rw [h2]
        exact buildBatch_deq_ne_nil hne
      | some ds =>
        rw [drain_retry hA hq] at hEq
        have h3 := congrArg Prod.snd hEq
        have h4 : drainLoop env r (i + 1) (some (env.authAcct i, ds)) (buildBatch deq).deq
            = ((drainLoop env r (i + 1) (some (env.authAcct i, ds)) (buildBatch deq).deq).1,
               (atts, DrainEnd.finished dF post o).2) := by
          rw [← h3]
        exact ih (i + 1) (some (env.authAcct i, ds)) (buildBatch deq).deq _ dF post o
          (buildBatch_deq_ne_nil hne) h4
    | thrown e =>
      rw [drain_thrown hA] at hEq
      have h3 := congrArg Prod.snd hEq
      simp at h3

/-! ### Case equations for one tick -/

theorem check_queue_clearing {env : Env} {s : St} (h : 0 < s.clearing) :
    check_queue env s = ⟨⟨s.enqueued, s.clearing - 1⟩, [], []⟩ := by
  unfold check_queue
  rw [if_pos h]

theorem check_queue_finished {env : Env} {s : St} {atts : List Attempt}
    {dF post : List Enqueued} {o : Outcome}
    (h0 : s.clearing = 0) (hne : s.enqueued ≠ [])
    (hd : drainLoop env 2 0 none s.enqueued = (atts, .finished dF post o)) :
    check_queue env s = ⟨⟨post, 1⟩, dF.map fun q => .outcome q.fid o, atts⟩ := by
  unfold check_queue
  rw [if_neg (by omega), if_pos (fun hc => hne (List.length_eq_zero.1 hc)), hd]

theorem check_queue_errored {env : Env} {s : St} {atts : List Attempt}
    {dE : List Enqueued} {e : String}
    (h0 : s.clearing = 0) (hne : s.enqueued ≠ [])
    (hd : drainLoop env 2 0 none s.enqueued = (atts, .errored dE e)) :
    check_queue env s = ⟨⟨[], s.clearing⟩, dE.map fun q => .err q.fid e, atts⟩ := by
  unfold check_queue
  rw [if_neg (by omega), if_pos (fun hc => hne (List.length_eq_zero.1 hc)), hd]

/-! ### Counting helpers -/

theorem enqCount_le_one_of_nodup {l : List Enqueued} (h : (l.map Enqueued.fid).Nodup)
    (f : Nat) : enqCount l f ≤ 1 := by
  induction l with
  | nil => simp [enqCount]
  | cons q t ih =>
    rw [List.map_cons, List.nodup_cons] at h
    obtain ⟨hq, ht⟩ := h
    unfold enqCount at ih ⊢
    rw [List.countP_cons]
    by_cases hf : q.fid = f
    · subst hf
      have hz : t.countP (fun p => p.fid == q.fid) = 0 := by
        rw [List.countP_eq_zero]
        intro p hp
        simp only [beq_iff_eq]
        intro hpe
        exact hq (by rw [← hpe]; exact List.mem_map_of_mem Enqueued.fid hp)
      simp [hz]
    · have hz : (q.fid == f) = false := by simpa using hf
      simp only [hz]
      simpa using ih ht

theorem enqCount_pos_of_mem {l : List Enqueued} {r : Enqueued} (h : r ∈ l) :
    1 ≤ enqCount l r.fid := by
  unfold enqCount
  exact List.countP_pos_iff.2 ⟨r, h, by simp⟩

theorem fidCount_map_outcome (l : List Enqueued) (o : Outcome) (f : Nat) :
    fidCount (l.map fun q => Resolution.outcome q.fid o) f = enqCount l f := by
  unfold fidCount enqCount
  rw [List.countP_map]
  rfl

theorem fidCount_map_err (l : List Enqueued) (e : String) (f : Nat) :
    fidCount (l.map fun q => Resolution.err q.fid e) f = enqCount l f := by
  unfold fidCount enqCount
  rw [List.countP_map]
  rfl

/-! ### Claim C5: cooldown pacing -/

/-- C5: a tick entered with a positive cooldown counter only decrements
the counter and returns, draining and submitting nothing; and a tick whose
drain completes without throwing (success or surrendered failure alike)
sets the cooldown counter to 1 before returning. -/
theorem C5_cooldown (env : Env) (s : St) :
    (0 < s.clearing → check_queue env s = ⟨⟨s.enqueued, s.clearing - 1⟩, [], []⟩) ∧
    (∀ (atts : List Attempt) (dF post : List Enqueued) (o : Outcome),
      s.clearing = 0 → s.enqueued ≠ [] →
      drainLoop env 2 0 none s.enqueued = (atts, DrainEnd.finished dF post o) →
      (check_queue env s).state.clearing = 1) := by
  constructor
  · intro h
    exact check_queue_clearing h
  · intro atts dF post o h0 hne hd
    rw [check_queue_finished h0 hne hd]

/-- Witness for C5: a tick with cooldown 2 only decrements it to 1, and a
tick that drains `[cexR1]` under `envOk` ends with cooldown 1. -/
theorem C5_cooldown_witness :
    check_queue envOk ⟨[cexR1], 2⟩ = ⟨⟨[cexR1], 1⟩, [], []⟩ ∧
    (check_queue envOk ⟨[cexR1], 0⟩).state.clearing = 1 :=
  ⟨(C5_cooldown envOk ⟨[cexR1], 2⟩).1 (by decide),
   (C5_cooldown envOk ⟨[cexR1], 0⟩).2 [cexAtt1] [cexR1] [] ⟨0, "", none⟩ rfl (by decide)
     (by decide)⟩

/-! ### Claim C10: the catastrophic path leaves the cooldown untouched -/

/-- The single attempt of draining `[cexR1, cexR2]` under `envThrow`. -/
def cexAttThrow : Attempt :=
  ⟨none, [cexR1, cexR2], [cexR1], [cexR1], [[0]], [cexR2], 15000, .thrown "socket hang up"⟩

/-- C10: when signing or broadcasting throws, `check_queue` resolves every
request still in the dequeued list with that error and returns at once:
the queue is left empty and `c_clearing` keeps the value (0) it had on
entry, so the very next tick is free to drain and submit again. -/
theorem C10_catastrophic (env : Env) (s : St) (atts : List Attempt) (dE : List Enqueued)
    (e : String) (h0 : s.clearing = 0) (hne : s.enqueued ≠ [])
    (hd : drainLoop env 2 0 none s.enqueued = (atts, DrainEnd.errored dE e)) :
    check_queue env s = ⟨⟨[], 0⟩, dE.map fun q => Resolution.err q.fid e, atts⟩ := by
  rw [check_queue_errored h0 hne hd, h0]

/-- Witness for C10: under `envThrow` the tick forwards the error to the
surviving dequeued future and leaves the cooldown at 0. -/
theorem C10_catastrophic_witness :
    check_queue envThrow ⟨[cexR1, cexR2], 0⟩ =
      ⟨⟨[], 0⟩, [cexR1].map fun q => Resolution.err q.fid "socket hang up", [cexAttThrow]⟩ :=
  C10_catastrophic envThrow ⟨[cexR1, cexR2], 0⟩ [cexAttThrow] [cexR1] "socket hang up" rfl
    (by decide) (by decide)

/-! ### Claim C1: exactly-once resolution -/

/-- C1 counterexample: requests 1 and 2 share a grantee and have distinct
payloads, and the submission throws. Request 2 was postponed — removed
from the dequeued list — so the catch path resolves only future 1 with the
error and never re-enqueues request 2: the tick ends with an empty queue
and future 2 unresolved, and no later tick can ever resolve it. -/
theorem C1_counterexample :
    (check_queue envThrow ⟨[cexR1, cexR2], 0⟩).resolutions
      = [Resolution.err 1 "socket hang up"] ∧
    (check_queue envThrow ⟨[cexR1, cexR2], 0⟩).state = ⟨[], 0⟩ := by
  decide

/-- C1 (amended): in any tick an enqueued request's future is resolved at
most once and never both resolved and re-enqueued; every request still in
the dequeued list of a drain that completes without throwing is resolved
exactly once with the final outcome; every request still in the dequeued
list when the submission throws is resolved exactly once with that thrown
error; and a request postponed by the final non-throwing iteration is
re-enqueued exactly once instead of being resolved. (A request postponed
during an iteration that throws or retries is dropped — neither resolved
nor re-enqueued — as the counterexample shows.) -/
theorem C1_exactly_once (env : Env) (s : St) (r : Enqueued)
    (h0 : s.clearing = 0) (hnd : (s.enqueued.map Enqueued.fid).Nodup) (hr : r ∈ s.enqueued) :
    fidCount (check_queue env s).resolutions r.fid
      + enqCount (check_queue env s).state.enqueued r.fid ≤ 1 ∧
    (∀ (atts : List Attempt) (dF post : List Enqueued) (o : Outcome),
      drainLoop env 2 0 none s.enqueued = (atts, DrainEnd.finished dF post o) →
      r ∈ dF → fidCount (check_queue env s).resolutions r.fid = 1 ∧
        Resolution.outcome r.fid o ∈ (check_queue env s).resolutions) ∧
    (∀ (atts : List Attempt) (dE : List Enqueued) (e : String),
      drainLoop env 2 0 none s.enqueued = (atts, DrainEnd.errored dE e) →
      r ∈ dE → fidCount (check_queue env s).resolutions r.fid = 1 ∧
        Resolution.err r.fid e ∈ (check_queue env s).resolutions) ∧
    (∀ (atts : List Attempt) (dF post : List Enqueued) (o : Outcome),
      drainLoop env 2 0 none s.enqueued = (atts, DrainEnd.finished dF post o) →
      r ∈ post → fidCount (check_queue env s).resolutions r.fid = 0 ∧
        enqCount (check_queue env s).state.enqueued r.fid = 1) := by
  have hne : s.enqueued ≠ [] := fun hc => by
    rw [hc] at hr
    exact absurd hr (List.not_mem_nil r)
  have hle := enqCount_le_one_of_nodup hnd r.fid
  have hcnt := drain_count env r.fid 2 0 none s.enqueued
  rcases hEnd : drainLoop env 2 0 none s.enqueued with ⟨atts, de⟩
  cases de with
  | finished dF post o =>
    have hq := check_queue_finished h0 hne hEnd
    have hD := hcnt.1 dF post o (by rw [hEnd])
    refine ⟨?_, ?_, ?_, ?_⟩
    · rw [hq]
      simp only [fidCount_map_outcome]
      omega
    · intro atts2 dF2 post2 o2 hd2 hrm
      simp only [Prod.mk.injEq, DrainEnd.finished.injEq] at hd2
      obtain ⟨h1, h2, h3, h4⟩ := hd2
      subst h2
      subst h4
      rw [hq]
      constructor
      · simp only [fidCount_map_outcome]
        have hpos := enqCount_pos_of_mem hrm
        omega
      · exact List.mem_map_of_mem (fun q => Resolution.outcome q.fid o) hrm
    · intro atts2 dE e hd2 hrm
      simp at hd2
    · intro atts2 dF2 post2 o2 hd2 hrm
      simp only [Prod.mk.injEq, DrainEnd.finished.injEq] at hd2
      obtain ⟨h1, h2, h3, h4⟩ := hd2
      subst h3
      rw [hq]
      have hpos := enqCount_pos_of_mem hrm
      constructor
      · simp only [fidCount_map_outcome]
        omega
      · show enqCount post r.fid = 1
        omega
  | errored dE e =>
    have hq := check_queue_errored h0 hne hEnd
    have hD := hcnt.2 dE e (by rw [hEnd])
    refine ⟨?_, ?_, ?_, ?_⟩
    · rw [hq]
      simp only [fidCount_map_err]
      have h5 : enqCount ([] : List Enqueued) r.fid = 0 := rfl
      omega
    · intro atts2 dF2 post2 o2 hd2 hrm
      simp at hd2
    · intro atts2 dE2 e2 hd2 hrm
      simp only [Prod.mk.injEq, DrainEnd.errored.injEq] at hd2
      obtain ⟨h1, h2, h3⟩ := hd2
      subst h2
      subst h3
      rw [hq]
      have hpos := enqCount_pos_of_mem hrm
      constructor
      · simp only [fidCount_map_err]
        omega
      · exact List.mem_map_of_mem (fun q => Resolution.err q.fid e) hrm
    · intro atts2 dF2 post2 o2 hd2 hrm
      simp at hd2

/-- Witness for C1 (amended) at concrete ticks: the resolved-exactly-once
part at a successful drain of `[cexR1]`, and the resolved-with-the-error
part at a throwing drain of `[cexR1, cexR2]` (request 1 survives). -/
theorem C1_exactly_once_witness :
    ([cexR1].map Enqueued.fid).Nodup ∧
    fidCount (check_queue envOk ⟨[cexR1], 0⟩).resolutions cexR1.fid
      + enqCount (check_queue envOk ⟨[cexR1], 0⟩).state.enqueued cexR1.fid ≤ 1 ∧
    fidCount (check_queue envOk ⟨[cexR1], 0⟩).resolutions cexR1.fid = 1 ∧
    Resolution.err cexR1.fid "socket hang up"
      ∈ (check_queue envThrow ⟨[cexR1, cexR2], 0⟩).resolutions :=
  ⟨by decide, (C1_exactly_once envOk ⟨[cexR1], 0⟩ cexR1 rfl (by decide) (by decide)).1,
   ((C1_exactly_once envOk ⟨[cexR1], 0⟩ cexR1 rfl (by decide) (by decide)).2.1
      [cexAtt1] [cexR1] [] ⟨0, "", none⟩ (by decide) (by decide)).1,
   ((C1_exactly_once envThrow ⟨[cexR1, cexR2], 0⟩ cexR1 rfl (by decide) (by decide)).2.2.1
      [cexAttThrow] [cexR1] "socket hang up" (by decide) (by decide)).2⟩

/-! ### Claim C2: per-grantee uniqueness and postponement -/

/-- C2 counterexample: three requests for the same grantee with pairwise
distinct payloads. The middle one is postponed and spliced out, which
shifts the third request under the cached reduce length: the third request
is skipped — its grantee is already claimed and its payload is distinct,
yet it is neither removed from the dequeued list nor postponed (nor added
to the batch). -/
theorem C2_counterexample :
    (check_queue envOk ⟨[cexR1, cexR2, cexR3], 0⟩).attempts.map Attempt.postponed
      = [[cexR2]] ∧
    (check_queue envOk ⟨[cexR1, cexR2, cexR3], 0⟩).attempts.map Attempt.accepted
      = [[cexR1]] ∧
    (check_queue envOk ⟨[cexR1, cexR2, cexR3], 0⟩).attempts.map Attempt.deqAfter
      = [[cexR1, cexR3]] ∧
    cexR3.grantee = cexR1.grantee ∧ cexR3.msg ≠ cexR1.msg ∧ cexR3.msg ≠ cexR2.msg := by
  decide

/-- C2 (amended): in every iteration of a drain, each grantee appears at
most once among the batched requests; every postponed request collided
with an earlier accepted request's grantee; and the requests removed from
the dequeued list are exactly the postponed ones. (A request that the
reduce skips — the one immediately following a removal — stays in the
dequeued list without being added to the batch or postponed, even if its
grantee is already claimed, as the counterexample shows.) -/
theorem C2_grantee_unique (env : Env) (deq : List Enqueued) (att : Attempt)
    (ha : att ∈ (drainLoop env 2 0 none deq).1) :
    (att.accepted.map Enqueued.grantee).Nodup ∧
    (∀ p ∈ att.postponed, p.grantee ∈ att.accepted.map Enqueued.grantee) ∧
    (att.deqAfter ++ att.postponed).Perm att.deqBefore := by
  obtain ⟨hA, hAcc, hPost, hB, hL⟩ := drain_attempt_shape env 2 0 none deq att ha
  obtain ⟨hg, hnd, hsub, hpost, hgnd⟩ := buildBatch_inv att.deqBefore
  refine ⟨?_, ?_, ?_⟩
  · rw [hAcc]
    exact hgnd
  · intro p hp
    rw [hPost] at hp
    rw [hAcc]
    exact hpost p hp
  · rw [hA, hPost]
    exact buildBatch_perm att.deqBefore

/-- Witness for C2 (amended) at the concrete skip scenario. -/
theorem C2_grantee_unique_witness :
    (cexAtt.accepted.map Enqueued.grantee).Nodup ∧
    (cexAtt.deqAfter ++ cexAtt.postponed).Perm cexAtt.deqBefore :=
  ⟨(C2_grantee_unique envOk [cexR1, cexR2, cexR3] cexAtt (by decide)).1,
   (C2_grantee_unique envOk [cexR1, cexR2, cexR3] cexAtt (by decide)).2.2⟩

/-! ### Claim C4: gas-limit aggregation -/

/-- C4 counterexample: two drained requests of 15000 gas each, one of
which is postponed for a same-grantee collision. The claim's sum over all
drained requests is 30000, but the transaction's gas limit is computed
over the dequeued list after the postponed request was removed: 15000. -/
theorem C4_counterexample :
    (check_queue envOk ⟨[cexR1, cexR2], 0⟩).attempts.map Attempt.limit = [15000] ∧
    sumLimits [cexR1, cexR2] = 30000 ∧
    (check_queue envOk ⟨[cexR1, cexR2], 0⟩).attempts.map Attempt.postponed = [[cexR2]] := by
  decide

/-- C4 (amended): in every iteration of a drain, the transaction's gas
limit is the sum of the `gas_limit` fields over the requests remaining in
the dequeued list after batch building — duplicate-payload (and skipped)
requests included, postponed requests excluded — equivalently, the sum
over the whole drained list minus the postponed requests' share. -/
theorem C4_gas_limit (env : Env) (deq : List Enqueued) (att : Attempt)
    (ha : att ∈ (drainLoop env 2 0 none deq).1) :
    att.limit = sumLimits att.deqAfter ∧
    att.limit + sumLimits att.postponed = sumLimits att.deqBefore := by
  obtain ⟨hA, hAcc, hPost, hB, hL⟩ := drain_attempt_shape env 2 0 none deq att ha
  refine ⟨hL, ?_⟩
  have hperm : (att.deqAfter ++ att.postponed).Perm att.deqBefore := by
    rw [hA, hPost]
    exact buildBatch_perm att.deqBefore
  have hsum := (hperm.map Enqueued.limit).sum_eq
  rw [List.map_append, List.sum_append] at hsum
  unfold sumLimits
  rw [hL]
  exact hsum

/-- Witness for C4 (amended): the collision drain computes 15000 as gas
limit, and 15000 plus the postponed 15000 recovers the drained total. -/
theorem C4_gas_limit_witness :
    cexAtt2.limit = sumLimits cexAtt2.deqAfter ∧
    cexAtt2.limit + sumLimits cexAtt2.postponed = sumLimits cexAtt2.deqBefore :=
  C4_gas_limit envOk [cexR1, cexR2] cexAtt2 (by decide)

/-! ### Claim C6: payload uniqueness per batch -/

/-- C6 counterexample: drain `[cexW, cexX, cexRr, cexQ]`. `cexX` is
postponed at index 1 and its splice shifts `cexRr` under the cached reduce
length, so `cexRr` is skipped and its payload never enters `as_msgs`. The
later `cexQ` — whose payload equals the earlier `cexRr`'s — is therefore
not dropped as a duplicate: it hits the grantee collision, is postponed
and re-enqueued, and its future is not resolved with the batch outcome
(only futures 4 and 6 are). -/
theorem C6_counterexample :
    cexQ.msg = cexRr.msg ∧
    (check_queue envOk ⟨[cexW, cexX, cexRr, cexQ], 0⟩).attempts.map Attempt.postponed
      = [[cexX, cexQ]] ∧
    (check_queue envOk ⟨[cexW, cexX, cexRr, cexQ], 0⟩).state.enqueued = [cexX, cexQ] ∧
    (check_queue envOk ⟨[cexW, cexX, cexRr, cexQ], 0⟩).resolutions
      = [Resolution.outcome 4 ⟨0, "", none⟩, Resolution.outcome 6 ⟨0, "", none⟩] := by
  decide

/-- C6 (amended): in every iteration of a drain, the base64 encodings of
the batched payloads are pairwise distinct — hence the payload byte
strings themselves are pairwise distinct. Only postponed requests leave
the dequeued list, so every drained request is either kept or postponed;
a request examined while its base64 payload is already in `as_msgs` is
dropped silently with the whole accumulator unchanged — it stays in the
dequeued list and, when the drain completes without throwing, is resolved
with the batch outcome like every other remaining request. However, when
the earlier equal-payload request was skipped by the shrunken pass, the
later request's payload is not yet in `as_msgs`, and it can be postponed
for a grantee collision and re-enqueued instead of being resolved with the
batch outcome, as the counterexample shows. -/
theorem C6_payload_unique (env : Env) (s : St) (att : Attempt)
    (ha : att ∈ (check_queue env s).attempts) :
    (att.accepted.map fun q => safe_bytes_to_base64 q.msg).Nodup ∧
    att.batch.Nodup ∧
    (att.deqAfter ++ att.postponed).Perm att.deqBefore ∧
    (∀ r ∈ att.deqBefore, r ∈ att.deqAfter ∨ r ∈ att.postponed) ∧
    (∀ (st : BuildSt) (k : Nat) (q : Enqueued), st.deq[k]? = some q →
      safe_bytes_to_base64 q.msg ∈ st.msgs → buildStep st k = st) ∧
    (∀ (atts : List Attempt) (dF post : List Enqueued) (o : Outcome),
      drainLoop env 2 0 none s.enqueued = (atts, DrainEnd.finished dF post o) →
      ∀ r ∈ dF, Resolution.outcome r.fid o ∈ (check_queue env s).resolutions) := by
  have h0 : ¬ 0 < s.clearing := by
    intro hc
    rw [check_queue_clearing hc] at ha
    exact absurd ha (List.not_mem_nil att)
  have hne : s.enqueued ≠ [] := by
    intro hc
    have hq : check_queue env s = ⟨s, [], []⟩ := by
      unfold check_queue
      rw [if_neg h0, if_neg (by simp [hc])]
    rw [hq] at ha
    exact absurd ha (List.not_mem_nil att)
  have hmem : att ∈ (drainLoop env 2 0 none s.enqueued).1 := by
    rcases hEnd : drainLoop env 2 0 none s.enqueued with ⟨atts, de⟩
    cases de with
    | finished dF post o =>
      rw [check_queue_finished (by omega) hne hEnd] at ha
      exact ha
    | errored dE e =>
      rw [check_queue_errored (by omega) hne hEnd] at ha
      exact ha
  obtain ⟨hA, hAcc, hPost, hB, hL⟩ := drain_attempt_shape env 2 0 none s.enqueued att hmem
  obtain ⟨hg, hnd, hsub, hpost, hgnd⟩ := buildBatch_inv att.deqBefore
  have hperm : (att.deqAfter ++ att.postponed).Perm att.deqBefore := by
    rw [hA, hPost]
    exact buildBatch_perm att.deqBefore
  refine ⟨?_, ?_, hperm, ?_, ?_, ?_⟩
  · rw [hAcc]
    exact hnd
  · rw [hB, hAcc]
    have h2 : ((buildBatch att.deqBefore).accepted.map fun q => safe_bytes_to_base64 q.msg)
        = ((buildBatch att.deqBefore).accepted.map Enqueued.msg).map safe_bytes_to_base64 := by
      rw [List.map_map]
      rfl
    rw [h2] at hnd
    exact hnd.of_map
  · intro r hrb
    exact List.mem_append.1 (hperm.mem_iff.2 hrb)
  · intro st k q hq1 hdup
    exact buildStep_dup hq1 hdup
  · intro atts dF post o hEnd r hrm
    rw [check_queue_finished (by omega) hne hEnd]
    exact List.mem_map_of_mem (fun q => Resolution.outcome q.fid o) hrm

/-- Witness for C6 (amended) at the duplicate-payload scenario: payload
distinctness of the batch holds, and the duplicate-payload request `cexQ`
ends up postponed (kept by the permutation, not deleted). -/
theorem C6_payload_unique_witness :
    (cexAttDup.accepted.map fun q => safe_bytes_to_base64 q.msg).Nodup ∧
    cexAttDup.batch.Nodup ∧
    (cexAttDup.deqAfter ++ cexAttDup.postponed).Perm cexAttDup.deqBefore :=
  ⟨(C6_payload_unique envOk ⟨[cexW, cexX, cexRr, cexQ], 0⟩ cexAttDup (by decide)).1,
   (C6_payload_unique envOk ⟨[cexW, cexX, cexRr, cexQ], 0⟩ cexAttDup (by decide)).2.1,
   (C6_payload_unique envOk ⟨[cexW, cexX, cexRr, cexQ], 0⟩ cexAttDup (by decide)).2.2.1⟩

/-! ### Claim C3: sequence-mismatch recovery and the retry cap -/

/-- C3: a sequence-mismatch outcome (non-zero code, codespace `sdk`, code
32, `/expected (\\d+)/` matching the log) with retries remaining leads to a
re-signed rebroadcast whose signing auth is overridden with the fetched
account number and the parsed sequence; any other outcome stands as final,
so at most 3 attempts occur, and three consecutive sequence-mismatch
outcomes end the drain with the third outcome, which is what every
surviving future is resolved with. -/
theorem C3_seq_retry (env : Env) (s : St)
    (h0 : s.clearing = 0) (hne : s.enqueued ≠ [])
    (h1 : seq32 (env.attempt 0) = true)
    (h2 : seq32 (env.attempt 1) = true)
    (h3 : seq32 (env.attempt 2) = true) :
    (check_queue env s).attempts.length = 3 ∧
    (check_queue env s).attempts.map Attempt.auth =
      [none, some (env.authAcct 0, seqOf (env.attempt 0)),
       some (env.authAcct 1, seqOf (env.attempt 1))] ∧
    (∃ o2 dF post, env.attempt 2 = AttemptResult.ok o2 ∧
      drainLoop env 2 0 none s.enqueued
        = ((check_queue env s).attempts, DrainEnd.finished dF post o2) ∧
      dF ≠ [] ∧
      (check_queue env s).resolutions = dF.map (fun q => Resolution.outcome q.fid o2) ∧
      (check_queue env s).resolutions ≠ []) ∧
    (∀ deq2 : List Enqueued, (drainLoop env 2 0 none deq2).1.length ≤ 3) ∧
    (∀ (rem i : Nat) (z : Option (String × String)) (deq2 : List Enqueued) (o : Outcome),
      env.attempt i = AttemptResult.ok o → retrySeq o = none →
      drainLoop env rem i z deq2 =
        ([⟨z, deq2, (buildBatch deq2).deq, (buildBatch deq2).accepted,
          (buildBatch deq2).accepted.map Enqueued.msg, (buildBatch deq2).postponed,
          sumLimits (buildBatch deq2).deq, AttemptResult.ok o⟩],
         DrainEnd.finished (buildBatch deq2).deq (buildBatch deq2).postponed o)) := by
  -- extract the three sequence-mismatch outcomes
  have hx : ∀ i : Nat, seq32 (env.attempt i) = true →
      ∃ o ds, env.attempt i = AttemptResult.ok o ∧ retrySeq o = some ds := by
    intro i hi
    cases hA : env.attempt i with
    | ok o =>
      rw [hA] at hi
      unfold seq32 at hi
      rcases Option.isSome_iff_exists.1 hi with ⟨ds, hds⟩
      exact ⟨o, ds, rfl, hds⟩
    | thrown e =>
      rw [hA] at hi
      exact absurd hi (by unfold seq32; simp)
  obtain ⟨o0, ds0, hA0, hq0⟩ := hx 0 h1
  obtain ⟨o1, ds1, hA1, hq1⟩ := hx 1 h2
  obtain ⟨o2, ds2, hA2, hq2⟩ := hx 2 h3
  have hs0 : seqOf (env.attempt 0) = ds0 := by rw [hA0]; simp [seqOf, hq0]
  have hs1 : seqOf (env.attempt 1) = ds1 := by rw [hA1]; simp [seqOf, hq1]
  -- unfold the three iterations
  have e1 : drainLoop env 2 0 none s.enqueued =
      (⟨none, s.enqueued, (buildBatch s.enqueued).deq, (buildBatch s.enqueued).accepted,
        (buildBatch s.enqueued).accepted.map Enqueued.msg, (buildBatch s.enqueued).postponed,
        sumLimits (buildBatch s.enqueued).deq, AttemptResult.ok o0⟩ ::
          (drainLoop env 1 1 (some (env.authAcct 0, ds0)) (buildBatch s.enqueued).deq).1,
       (drainLoop env 1 1 (some (env.authAcct 0, ds0)) (buildBatch s.enqueued).deq).2) :=
    drain_retry hA0 hq0
  have e2 : drainLoop env 1 1 (some (env.authAcct 0, ds0)) (buildBatch s.enqueued).deq =
      (⟨some (env.authAcct 0, ds0), (buildBatch s.enqueued).deq,
        (buildBatch (buildBatch s.enqueued).deq).deq,
        (buildBatch (buildBatch s.enqueued).deq).accepted,
        (buildBatch (buildBatch s.enqueued).deq).accepted.map Enqueued.msg,
        (buildBatch (buildBatch s.enqueued).deq).postponed,
        sumLimits (buildBatch (buildBatch s.enqueued).deq).deq, AttemptResult.ok o1⟩ ::
          (drainLoop env 0 2 (some (env.authAcct 1, ds1))
            (buildBatch (buildBatch s.enqueued).deq).deq).1,
       (drainLoop env 0 2 (some (env.authAcct 1, ds1))
          (buildBatch (buildBatch s.enqueued).deq).deq).2) :=
    drain_retry hA1 hq1
  have e3 : drainLoop env 0 2 (some (env.authAcct 1, ds1))
      (buildBatch (buildBatch s.enqueued).deq).deq =
      ([⟨some (env.authAcct 1, ds1), (buildBatch (buildBatch s.enqueued).deq).deq,
        (buildBatch (buildBatch (buildBatch s.enqueued).deq).deq).deq,
        (buildBatch (buildBatch (buildBatch s.enqueued).deq).deq).accepted,
        (buildBatch (buildBatch (buildBatch s.enqueued).deq).deq).accepted.map Enqueued.msg,
        (buildBatch (buildBatch (buildBatch s.enqueued).deq).deq).postponed,
        sumLimits (buildBatch (buildBatch (buildBatch s.enqueued).deq).deq).deq,
        AttemptResult.ok o2⟩],
       DrainEnd.finished (buildBatch (buildBatch (buildBatch s.enqueued).deq).deq).deq
         (buildBatch (buildBatch (buildBatch s.enqueued).deq).deq).postponed o2) :=
    drain_final hA2 (Or.inl rfl)
  rw [e2, e3] at e1
  have hcq := check_queue_finished h0 hne e1
  have hdF : (buildBatch (buildBatch (buildBatch s.enqueued).deq).deq).deq ≠ [] :=
    buildBatch_deq_ne_nil (buildBatch_deq_ne_nil (buildBatch_deq_ne_nil hne))
  refine ⟨by rw [hcq]; rfl, ?_, ?_, ?_, ?_⟩
  · rw [hcq, hs0, hs1]
    rfl
  · refine ⟨o2, (buildBatch (buildBatch (buildBatch s.enqueued).deq).deq).deq,
      (buildBatch (buildBatch (buildBatch s.enqueued).deq).deq).postponed, hA2, ?_, hdF, ?_, ?_⟩
    · rw [hcq]
      exact e1
    · rw [hcq]
    · rw [hcq]
      intro hc
      exact hdF (List.map_eq_nil_iff.1 hc)
  · intro deq2
    exact drain_len env 2 0 none deq2
  · intro rem i z deq2 o hA hrq
    exact drain_final hA (Or.inr hrq)

/-- Witness for C3: three consecutive sequence-mismatch outcomes under
`envSeq` produce exactly 3 attempts with the injected auth overrides. -/
theorem C3_seq_retry_witness :
    seq32 (envSeq.attempt 0) = true ∧
    (check_queue envSeq ⟨[cexR1], 0⟩).attempts.length = 3 ∧
    (check_queue envSeq ⟨[cexR1], 0⟩).attempts.map Attempt.auth =
      [none, some (envSeq.authAcct 0, seqOf (envSeq.attempt 0)),
       some (envSeq.authAcct 1, seqOf (envSeq.attempt 1))] :=
  ⟨by decide,
   (C3_seq_retry envSeq ⟨[cexR1], 0⟩ rfl (by decide) (by decide) (by decide) (by decide)).1,
   (C3_seq_retry envSeq ⟨[cexR1], 0⟩ rfl (by decide) (by decide) (by decide) (by decide)).2.1⟩

/-! ### Claim C7: still-full unexpired allowance gives 400 and no enqueue -/

/-- C7: when the existing allowance is basic, its first spend-limit amount
equals the configured `ALLOWANCE_AMOUNT` compared as a decimal string, and
its expiration parses to a time more than one hour (3 600 000 ms) past
`Date.now()`, `claim` replies HTTP 400 with the fixed error body and makes
no `enqueue` call — neither revoke nor grant. -/
theorem C7_full_allowance (env : ClaimEnv) (sa : String) (w : AllowanceWrapper)
    (a : AllowanceObj) (sexp : String) (t : Int)
    (hv : validAddress env sa = true)
    (hq : env.queryRes.bind QueryAllowanceRes.allowance = some w)
    (hw : w.allowance = some a)
    (ht : a.typ = SI_BASIC_ALLOWANCE)
    (ham : a.spend_limit.head?.map Coin.amount = some (toString env.allowanceAmount))
    (hs : a.expiration = some sexp)
    (hp : env.parseDateMs sexp = some t)
    (hrem : t - env.nowMs > 3600000) :
    claim env sa
      = ⟨400, RespBody.errJson "Existing feegrant is full and hasn't expired yet", []⟩ := by
  unfold claim
  rw [hv]
  simp only [hq, hw, hs, hp, ht]
  simp [ham, hrem]

/-- Witness for C7: a full basic allowance expiring two hours from now. -/
theorem C7_full_allowance_witness :
    claim claimEnvFull "secret1validaddress0"
      = ⟨400, RespBody.errJson "Existing feegrant is full and hasn't expired yet", []⟩ :=
  C7_full_allowance claimEnvFull "secret1validaddress0" ⟨some cexAllow⟩ cexAllow
    "2030-01-01T00:00:00Z" 7200000 (by decide) rfl rfl rfl (by decide) rfl rfl (by decide)

/-! ### Claim C8: invalid addresses give 400 and never enter the queue -/

/-- C8: an address without the `secret1` prefix, or whose bech32 decoding
throws, or whose decoded payload is not exactly 20 bytes, makes `claim`
reply HTTP 400 with the invalid-bech32 body and make no `enqueue` call,
leaving the pending queue untouched. -/
theorem C8_invalid_address (env : ClaimEnv) (sa : String)
    (h : startsWithSecret1 sa = false ∨ env.bech32Decode sa = none ∨
      ∀ d, env.bech32Decode sa = some d → d.length ≠ 20) :
    claim env sa = ⟨400, RespBody.errJson "Invalid bech32 address", []⟩ := by
  have hv : validAddress env sa = false := by
    unfold validAddress
    rcases h with h | h | h
    · simp [h]
    · simp [h]
    · cases hd : env.bech32Decode sa with
      | none => simp
      | some d => simp [h d hd]
  unfold claim
  rw [hv]
  simp

/-- Witness for C8: the literal address `abc` (bad prefix). -/
theorem C8_invalid_address_witness :
    claim claimEnvBase "abc" = ⟨400, RespBody.errJson "Invalid bech32 address", []⟩ :=
  C8_invalid_address claimEnvBase "abc" (Or.inl (by decide))

/-! ### Claim C9: the POST route and the GET route agree -/

/-- C9: for every address value and every environment, the `POST /claim`
handler (address read from the JSON body) returns the same status, body
and enqueue list as the `GET /claim/:address` handler (address read from
the path): both invoke the identical `claim` procedure on the extracted
address. -/
theorem C9_routes_equivalent (env : ClaimEnv) (address : String) :
    handleClaimGet env address = handleClaimPost env address := rfl

end Feegrant
